import Mathlib

/-!
Verification of the issue-matching and analytics engine of the
tidb-community-intelligence repository.

The engine (src/src/data_collector.py and the matcher in
src/demo/advanced_app.py) is embedded shallowly:

* Python strings are Lean `String`s; the helpers below reimplement the
  exact Python primitives used by the code (`str.lower`, `str.split`,
  substring containment `in`, `" ".join`) by structural recursion over
  the character list, so that concrete runs reduce inside the kernel.
  ASCII text suffices for every keyword table in the source.
* Python numbers are `Nat` where the source only ever holds non-negative
  integers (comment counts, scores) and `ℚ` where the source computes
  ratios; timestamps are modelled as rational day counts, which is all
  the 90-day recency arithmetic observes.
* `collections.Counter` together with `most_common` is modelled by an
  insertion-ordered association list plus a stable sort; Python's
  `list.sort`/`sorted` are stable, and a stable sort w.r.t. a total
  preorder is unique, so Mathlib's `insertionSort` is an exact model.
* `datetime.now()` is modelled by an injected clock stream
  `clock : Nat → ℚ` giving the value of the k-th read of the wall clock
  during one processing run.
* `pandas.DataFrame` built from a list of records exposes the record
  fields as columns only when the list is non-empty; accessing a column
  of the empty frame raises `KeyError`.  Fallible aggregation is
  therefore returned in `Except String`.
-/

/-! ### String primitives used by the source -/

/-- Python `str.lower` (ASCII). -/
def lower (s : String) : String := String.mk (s.data.map Char.toLower)

/-- Does the character list start with the given pattern? -/
def leadMatch : List Char → List Char → Bool
  | _, [] => true
  | [], _ :: _ => false
  | c :: cs, d :: ds => c = d && leadMatch cs ds

/-- Substring occurrence on character lists. -/
def hasSubL : List Char → List Char → Bool
  | [], needle => needle.isEmpty
  | c :: t, needle => leadMatch (c :: t) needle || hasSubL t needle

/-- Python `needle in hay` on strings. -/
def hasSubStr (hay needle : String) : Bool := hasSubL hay.data needle.data

/-- Accumulator-based whitespace splitter: Python `str.split()` with no
argument splits on runs of whitespace and drops empty pieces. -/
def splitWsAux : List Char → List Char → List String
  | [], acc => if acc.isEmpty then [] else [String.mk acc.reverse]
  | c :: cs, acc =>
    if c.isWhitespace then
      if acc.isEmpty then splitWsAux cs [] else String.mk acc.reverse :: splitWsAux cs []
    else splitWsAux cs (c :: acc)

/-- Python `s.split()`. -/
def splitWords (s : String) : List String := splitWsAux s.data []

/-- Python `set(s.lower().split())`, as a duplicate-free list.  Only
membership and cardinality of the result are ever used, so the order in
which `dedup` keeps representatives is irrelevant. -/
def wordSet (s : String) : List String := (splitWords (lower s)).dedup

/-- Python `" ".join(labels)`. -/
def joinWords : List String → String
  | [] => ""
  | [s] => s
  | s :: rest => s ++ " " ++ joinWords rest

/-! ### Data model -/

/-- The raw GitHub issue fields read by the collector.  `body` is
`Option` because the API returns `null` bodies (`issue['body'] or ''`). -/
structure RawIssue where
  title : String
  body : Option String
  labels : List String
  state : String
  comments : Nat
  assignees : List String
  milestone : Option String
  created_at : ℚ

/-- Python `issue['body'] or ''`. -/
def bodyStr (i : RawIssue) : String :=
  match i.body with
  | some b => b
  | none => ""

/-- A processed issue as produced by `process_issues` (the fields used by
the analytics and the matcher; identity/author fields play no role in any
verified property). -/
structure ProcessedIssue where
  title : String
  body : String
  state : String
  labels : List String
  comments_count : Nat
  assignees : List String
  milestone : Option String
  created_at : ℚ
  category : String
  tech_context : List String
  has_solution : Bool
  is_recent : Bool
  engagement_score : Nat

/-! ### categorize_issue (src/src/data_collector.py lines 66-92) -/

def perfWords : List String := ["performance", "slow", "optimization", "latency"]

def configWords : List String := ["configuration", "config", "setup", "install"]

def migrationWords : List String := ["migration", "migrate", "import"]

def errorWords : List String := ["error", "fail", "panic", "crash"]

def docWords : List String := ["documentation", "doc", "readme"]

/-- `labels = [label['name'].lower() for label in issue['labels']]`. -/
def labelsLower (i : RawIssue) : List String := i.labels.map lower

/-- `any('bug' in label for label in labels)`. -/
def labelsHaveBug (i : RawIssue) : Bool :=
  (labelsLower i).any (fun l => hasSubStr l "bug")

/-- `any(label in ['enhancement', 'feature', 'type/enhancement'] for label in labels)`. -/
def labelsEnhancement (i : RawIssue) : Bool :=
  (labelsLower i).any (fun l => l = "enhancement" || l = "feature" || l = "type/enhancement")

/-- `any('question' in label for label in labels)`. -/
def labelsQuestion (i : RawIssue) : Bool :=
  (labelsLower i).any (fun l => hasSubStr l "question")

/-- `any('help' in label for label in labels)`. -/
def labelsHelp (i : RawIssue) : Bool :=
  (labelsLower i).any (fun l => hasSubStr l "help")

/-- `any(word in title for word in ws)` over the lower-cased title. -/
def titleHasAny (i : RawIssue) (ws : List String) : Bool :=
  ws.any (fun w => hasSubStr (lower i.title) w)

/-- `categorize_issue`: the body is lower-cased by the source but never
inspected; the priority chain checks labels first, then title keywords,
with the error keywords checked before the documentation keywords. -/
def categorize_issue (i : RawIssue) : String :=
  if labelsHaveBug i then "bug"
  else if labelsEnhancement i then "enhancement"
  else if labelsQuestion i then "question"
  else if labelsHelp i then "help"
  else if titleHasAny i perfWords then "performance"
  else if titleHasAny i configWords then "configuration"
  else if titleHasAny i migrationWords then "migration"
  else if titleHasAny i errorWords then "error"
  else if titleHasAny i docWords then "documentation"
  else "other"

/-- First tag whose predicate fired, `"other"` when none did: the
ordered (predicate, tag) list evaluated short-circuit that the spec
describes. -/
def firstTag : List (Bool × String) → String
  | [] => "other"
  | (true, t) :: _ => t
  | (false, _) :: rest => firstTag rest

/-- Modelled from the claim wording of C1: the priority list exactly as
the claim states it, with the documentation keywords checked BEFORE the
error keywords. -/
def categorize_claimOrder (i : RawIssue) : String :=
  firstTag
    [(labelsHaveBug i, "bug"),
     (labelsEnhancement i, "enhancement"),
     (labelsQuestion i, "question"),
     (labelsHelp i, "help"),
     (titleHasAny i perfWords, "performance"),
     (titleHasAny i configWords, "configuration"),
     (titleHasAny i migrationWords, "migration"),
     (titleHasAny i docWords, "documentation"),
     (titleHasAny i errorWords, "error")]

/-- The amended priority list: identical to the claim's except that the
error keywords are checked before the documentation keywords, which is
the order the source implements. -/
def categorize_amendedOrder (i : RawIssue) : String :=
  firstTag
    [(labelsHaveBug i, "bug"),
     (labelsEnhancement i, "enhancement"),
     (labelsQuestion i, "question"),
     (labelsHelp i, "help"),
     (titleHasAny i perfWords, "performance"),
     (titleHasAny i configWords, "configuration"),
     (titleHasAny i migrationWords, "migration"),
     (titleHasAny i errorWords, "error"),
     (titleHasAny i docWords, "documentation")]

/-! ### Feature extraction (src/src/data_collector.py lines 94-204) -/

/-- The fixed technology mapping of `extract_tech_context`, in its
enumeration order. -/
def tech_patterns : List (String × List String) :=
  [("kubernetes", ["kubernetes", "k8s", "kubectl", "pod", "namespace", "helm"]),
   ("docker", ["docker", "container", "dockerfile", "image"]),
   ("mysql", ["mysql", "mariadb", "migration", "compatibility"]),
   ("cloud", ["aws", "azure", "gcp", "cloud", "s3", "ec2"]),
   ("monitoring", ["prometheus", "grafana", "monitoring", "metrics", "alerting"]),
   ("backup", ["backup", "restore", "br", "dumpling"]),
   ("replication", ["replication", "replica", "sync", "binlog"]),
   ("performance", ["slow", "performance", "optimization", "latency", "bottleneck"]),
   ("tiflash", ["tiflash", "columnar", "analytical"]),
   ("tikv", ["tikv", "storage", "raftstore"]),
   ("pd", ["pd", "placement driver", "scheduler"]),
   ("cdc", ["cdc", "change data capture", "ticdc"])]

/-- `extract_tech_context`: a tag is appended when any of its trigger
substrings occurs in the lower-cased title-plus-body text. -/
def extract_tech_context (i : RawIssue) : List String :=
  let text := lower (i.title ++ " " ++ bodyStr i)
  tech_patterns.filterMap
    (fun p => if p.2.any (fun kw => hasSubStr text kw) then some p.1 else none)

/-- `is_recent_issue`: created strictly after `now - 90` days. -/
def is_recent_issue (created_at now : ℚ) : Bool := decide (now - 90 < created_at)

/-- `calculate_engagement_score`, accumulated exactly as the source does. -/
def calculate_engagement_score (i : RawIssue) : Nat :=
  let score := min (i.comments * 2) 20
  let score := score + i.labels.length
  let score := score + i.assignees.length * 3
  let score := if i.milestone.isSome then score + 5 else score
  min score 50

/-- One iteration of `process_issues`: `now` is the wall-clock value the
`datetime.now()` call inside `is_recent_issue` returns for this issue. -/
def process_issue (now : ℚ) (r : RawIssue) : ProcessedIssue :=
  { title := r.title
    body := bodyStr r
    state := r.state
    labels := r.labels
    comments_count := r.comments
    assignees := r.assignees
    milestone := r.milestone
    created_at := r.created_at
    category := categorize_issue r
    tech_context := extract_tech_context r
    has_solution := decide (r.state = "closed") && decide (0 < r.comments)
    is_recent := is_recent_issue r.created_at now
    engagement_score := calculate_engagement_score r }

/-- `for i, issue in enumerate(issues)`: the k-th iteration performs the
k-th clock read. -/
def process_issues_aux (clock : Nat → ℚ) : Nat → List RawIssue → List ProcessedIssue
  | _, [] => []
  | k, r :: rest => process_issue (clock k) r :: process_issues_aux clock (k + 1) rest

/-- `process_issues`: each issue's recency flag reads the clock anew. -/
def process_issues (clock : Nat → ℚ) (issues : List RawIssue) : List ProcessedIssue :=
  process_issues_aux clock 0 issues

/-! ### Claim C1 -/

/-- `firstTag` on a cons is an if-then-else. -/
theorem firstTag_cons (b : Bool) (t : String) (rest : List (Bool × String)) :
    firstTag ((b, t) :: rest) = if b then t else firstTag rest := by
  cases b <;> rfl

/-- Claim C1 (amended): `categorize_issue` returns the tag of the first
matching predicate in the fixed priority order with the error keywords
checked before the documentation keywords, and any issue with a label
containing "bug" is categorized as `bug` regardless of every other
label or title keyword. -/
theorem categorize_priority_order (i : RawIssue) :
    categorize_issue i = categorize_amendedOrder i ∧
    (labelsHaveBug i = true → categorize_issue i = "bug") := by
  constructor
  · simp only [categorize_amendedOrder, firstTag_cons, categorize_issue, firstTag]
  · intro h
    simp only [categorize_issue, h, if_true]

/-- Witness for C1 at the claim's own example: labels `{"bug","question"}`. -/
def bugQuestionIssue : RawIssue :=
  { title := "performance of reads"
    body := some "some text"
    labels := ["bug", "question"]
    state := "open"
    comments := 0
    assignees := []
    milestone := none
    created_at := 0 }

theorem categorize_priority_order_witness :
    labelsHaveBug bugQuestionIssue = true ∧ categorize_issue bugQuestionIssue = "bug" :=
  ⟨by decide, (categorize_priority_order bugQuestionIssue).2 (by decide)⟩

/-- A title hitting both an error keyword ("fail") and a documentation
keyword ("readme"), with no labels. -/
def readmeFailIssue : RawIssue :=
  { title := "readme fail"
    body := none
    labels := []
    state := "open"
    comments := 0
    assignees := []
    milestone := none
    created_at := 0 }

/-- Counterexample to C1 as stated: the claim's priority order (with the
documentation keywords before the error keywords) yields `documentation`
on this issue, but the source categorizes it as `error`. -/
theorem categorize_claimOrder_counterexample :
    categorize_issue readmeFailIssue = "error" ∧
    categorize_claimOrder readmeFailIssue = "documentation" ∧
    categorize_issue readmeFailIssue ≠ categorize_claimOrder readmeFailIssue := by
  refine ⟨by decide, by decide, by decide⟩

/-! ### Claim C9 -/

/-- Claim C9: categorization is independent of the issue body; two raw
issues agreeing on labels and title receive the same category. -/
theorem categorize_ignores_body (i j : RawIssue)
    (hl : i.labels = j.labels) (ht : i.title = j.title) :
    categorize_issue i = categorize_issue j := by
  simp only [categorize_issue, labelsHaveBug, labelsEnhancement, labelsQuestion,
    labelsHelp, titleHasAny, labelsLower, hl, ht]

def bodyVariantA : RawIssue :=
  { title := "slow query on large table"
    body := some "original body mentioning docker"
    labels := ["area/sql"]
    state := "open"
    comments := 2
    assignees := []
    milestone := none
    created_at := 0 }

def bodyVariantB : RawIssue :=
  { title := "slow query on large table"
    body := none
    labels := ["area/sql"]
    state := "closed"
    comments := 9
    assignees := ["alice"]
    milestone := some "v8.0"
    created_at := 3 }

theorem categorize_ignores_body_witness :
    bodyVariantA.labels = bodyVariantB.labels ∧
    bodyVariantA.title = bodyVariantB.title ∧
    categorize_issue bodyVariantA = categorize_issue bodyVariantB :=
  ⟨rfl, rfl, categorize_ignores_body bodyVariantA bodyVariantB rfl rfl⟩

/-! ### Claim C5 -/

/-- The claim's example issue: 12 comments, one label, no assignees, no
milestone. -/
def exampleEngagementIssue : RawIssue :=
  { title := "TiDB connection timeout in Kubernetes cluster"
    body := some "happens on k8s 1.27"
    labels := ["type/bug"]
    state := "closed"
    comments := 12
    assignees := []
    milestone := none
    created_at := 0 }

/-- Claim C5: the engagement score equals
`min(comments*2, 20) + len(labels) + len(assignees)*3 + (5 if milestone else 0)`
clamped to at most 50, it always lies in [0, 50], and the claim's example
issue scores 21. -/
theorem engagement_score_formula :
    (∀ i : RawIssue,
      calculate_engagement_score i =
        min (min (i.comments * 2) 20 + i.labels.length + i.assignees.length * 3 +
          (if i.milestone.isSome then 5 else 0)) 50 ∧
      calculate_engagement_score i ≤ 50) ∧
    calculate_engagement_score exampleEngagementIssue = 21 := by
  refine ⟨fun i => ?_, by decide⟩
  simp only [calculate_engagement_score]
  split_ifs <;> omega

/-! ### Claim C6 -/

/-- Claim C6: the engagement score is monotonically non-decreasing in the
comment count, the label count and the assignee count, each varied alone. -/
theorem engagement_score_monotone (i : RawIssue) (c : Nat) (ls asg : List String) :
    (i.comments ≤ c →
      calculate_engagement_score i ≤ calculate_engagement_score { i with comments := c }) ∧
    (i.labels.length ≤ ls.length →
      calculate_engagement_score i ≤ calculate_engagement_score { i with labels := ls }) ∧
    (i.assignees.length ≤ asg.length →
      calculate_engagement_score i ≤ calculate_engagement_score { i with assignees := asg }) := by
  refine ⟨fun h => ?_, fun h => ?_, fun h => ?_⟩ <;>
    · simp only [calculate_engagement_score]
      split_ifs <;> omega

theorem engagement_score_monotone_witness :
    bodyVariantA.comments ≤ 7 ∧
    calculate_engagement_score bodyVariantA ≤
      calculate_engagement_score { bodyVariantA with comments := 7 } :=
  ⟨by decide, (engagement_score_monotone bodyVariantA 7 [] []).1 (by decide)⟩

/-! ### Similarity matcher (src/demo/advanced_app.py lines 114-172) -/

/-- The integer weighted overlap computed inside `calculate_similarity`:
`3*|Q∩title| + 1*|Q∩body| + 2*|Q∩labels| + 4*|Q∩tech]`.  `query_words`
is already duplicate-free, so filtering it counts the intersection. -/
def query_overlap (query_words : List String) (i : ProcessedIssue) : Nat :=
  let title_overlap := (query_words.filter (fun w => w ∈ wordSet i.title)).length * 3
  let body_overlap := (query_words.filter (fun w => w ∈ wordSet i.body)).length * 1
  let label_overlap := (query_words.filter (fun w => w ∈ wordSet (joinWords i.labels))).length * 2
  let tech_overlap := (query_words.filter (fun w => w ∈ i.tech_context.dedup)).length * 4
  title_overlap + body_overlap + label_overlap + tech_overlap

/-- `calculate_similarity`: overlap normalized by `len(query_words) * 4`
when that is positive, else 0, finally capped at 1. -/
def calculate_similarity (query : String) (i : ProcessedIssue) : ℚ :=
  let query_words := wordSet query
  let total_overlap := query_overlap query_words i
  let max_possible := query_words.length * 4
  let similarity : ℚ := if max_possible > 0 then (total_overlap : ℚ) / (max_possible : ℚ) else 0
  min similarity 1

/-- `get_solution_confidence`, accumulated exactly as the source does. -/
def get_solution_confidence (i : ProcessedIssue) : ℚ :=
  let confidence : ℚ := 0
  let confidence := confidence + (if i.has_solution then 0.5 else 0)
  let confidence := confidence + min ((i.comments_count : ℚ) * 0.02) 0.3
  let confidence := confidence + (if i.is_recent then 0.1 else 0)
  let confidence := confidence + min ((i.engagement_score : ℚ) * 0.01) 0.1
  min confidence 1

/-- One scored candidate of `find_similar_issues`. -/
structure MatchResult where
  issue : ProcessedIssue
  similarity : ℚ
  confidence : ℚ

/-- The descending-lexicographic order on `(similarity, confidence)` that
`similarities.sort(key=..., reverse=True)` sorts by. -/
def matchGE (a b : MatchResult) : Prop :=
  b.similarity < a.similarity ∨
    (b.similarity = a.similarity ∧ b.confidence ≤ a.confidence)

instance : DecidableRel matchGE := fun a b =>
  inferInstanceAs (Decidable (b.similarity < a.similarity ∨
    (b.similarity = a.similarity ∧ b.confidence ≤ a.confidence)))

instance : IsTrans MatchResult matchGE := by
  refine ⟨fun a b c hab hbc => ?_⟩
  rcases hab with h1 | ⟨h1, h1c⟩ <;> rcases hbc with h2 | ⟨h2, h2c⟩
  · exact Or.inl (lt_trans h2 h1)
  · exact Or.inl (h2 ▸ h1)
  · exact Or.inl (h1 ▸ h2)
  · exact Or.inr ⟨h2.trans h1, h2c.trans h1c⟩

instance : IsTotal MatchResult matchGE := by
  refine ⟨fun a b => ?_⟩
  rcases lt_trichotomy a.similarity b.similarity with h | h | h
  · exact Or.inr (Or.inl h)
  · rcases le_total a.confidence b.confidence with hc | hc
    · exact Or.inr (Or.inr ⟨h, hc⟩)
    · exact Or.inl (Or.inr ⟨h.symm, hc⟩)
  · exact Or.inl (Or.inl h)

/-- `find_similar_issues`: keep only candidates with positive similarity,
sort them stably by `(similarity, confidence)` descending, truncate. -/
def find_similar_issues (query : String) (issues : List ProcessedIssue) (top_k : Nat) :
    List MatchResult :=
  if query.data.all (fun c => c.isWhitespace) then []
  else
    let similarities := issues.filterMap (fun i =>
      let s := calculate_similarity query i
      if s > 0 then
        some { issue := i, similarity := s, confidence := get_solution_confidence i }
      else none)
    (similarities.insertionSort matchGE).take top_k

/-- Modelled from the claim wording of C2: the weighted overlap divided by
`4*|Q|` and clamped to the interval [0, 1]. -/
def claimSimilarity (query : String) (i : ProcessedIssue) : ℚ :=
  let q := wordSet query
  let weighted : ℚ :=
    3 * ((q.filter (fun w => w ∈ wordSet i.title)).length : ℚ) +
    1 * ((q.filter (fun w => w ∈ wordSet i.body)).length : ℚ) +
    2 * ((q.filter (fun w => w ∈ wordSet (joinWords i.labels))).length : ℚ) +
    4 * ((q.filter (fun w => w ∈ i.tech_context.dedup)).length : ℚ)
  max 0 (min (weighted / (4 * (q.length : ℚ))) 1)

/-- Positivity of the similarity is exactly positivity of the integer
weighted overlap. -/
theorem calculate_similarity_pos_iff (query : String) (i : ProcessedIssue) :
    0 < calculate_similarity query i ↔ 0 < query_overlap (wordSet query) i := by
  simp only [calculate_similarity]
  constructor
  · intro h
    rw [lt_min_iff] at h
    obtain ⟨h, -⟩ := h
    split at h
    · by_contra hz
      have : query_overlap (wordSet query) i = 0 := by omega
      rw [this] at h
      simp at h
    · simp at h
  · intro h
    have hone : (0 : ℚ) < 1 := one_pos
    have hq : 0 < (wordSet query).length := by
      by_contra hz
      have hnil : wordSet query = [] := by
        cases hw : wordSet query with
        | nil => rfl
        | cons a l => rw [hw] at hz; simp at hz
      have : query_overlap (wordSet query) i = 0 := by
        simp [query_overlap, hnil]
      omega
    rw [lt_min_iff]
    refine ⟨?_, hone⟩
    rw [if_pos (by omega : (wordSet query).length * 4 > 0)]
    apply div_pos
    · exact_mod_cast h
    · exact_mod_cast (by omega : 0 < (wordSet query).length * 4)

/-- Every member of the result list is one of the input issues, scored by
`calculate_similarity` and `get_solution_confidence`, and was kept by the
positive-similarity filter. -/
theorem mem_find_similar_issues {query : String} {issues : List ProcessedIssue} {top_k : Nat}
    {m : MatchResult} (hm : m ∈ find_similar_issues query issues top_k) :
    m.issue ∈ issues ∧ m.similarity = calculate_similarity query m.issue ∧
      m.confidence = get_solution_confidence m.issue ∧ 0 < m.similarity := by
  unfold find_similar_issues at hm
  split at hm
  · simp at hm
  · have h1 := List.take_subset top_k _ hm
    rw [List.mem_insertionSort] at h1
    rw [List.mem_filterMap] at h1
    obtain ⟨i, hi, hfi⟩ := h1
    dsimp only at hfi
    split at hfi
    · cases hfi
      exact ⟨hi, rfl, rfl, by assumption⟩
    · cases hfi

/-! ### Claim C2 -/

/-- Claim C2: for a non-empty query word set the similarity equals the
weighted overlap normalized by `4*|Q|` and clamped to [0, 1], and no
returned candidate ever carries similarity exactly 0. -/
theorem similarity_formula_clamped (query : String) (i : ProcessedIssue)
    (issues : List ProcessedIssue) (top_k : Nat) (m : MatchResult)
    (h : wordSet query ≠ []) :
    calculate_similarity query i = claimSimilarity query i ∧
    (m ∈ find_similar_issues query issues top_k → m.similarity ≠ 0) := by
  constructor
  · have hl : 0 < (wordSet query).length := List.length_pos.mpr h
    simp only [calculate_similarity, claimSimilarity]
    rw [if_pos (by omega : (wordSet query).length * 4 > 0)]
    have hfrac : ((query_overlap (wordSet query) i : ℚ)) /
        ((((wordSet query).length * 4 : Nat)) : ℚ) =
        (3 * (((wordSet query).filter (fun w => w ∈ wordSet i.title)).length : ℚ) +
         1 * (((wordSet query).filter (fun w => w ∈ wordSet i.body)).length : ℚ) +
         2 * (((wordSet query).filter (fun w => w ∈ wordSet (joinWords i.labels))).length : ℚ) +
         4 * (((wordSet query).filter (fun w => w ∈ i.tech_context.dedup)).length : ℚ)) /
        (4 * ((wordSet query).length : ℚ)) := by
      simp only [query_overlap]
      push_cast
      ring_nf
    rw [hfrac]
    rw [max_eq_right]
    refine le_min ?_ ?_
    · have hden : (0 : ℚ) < 4 * ((wordSet query).length : ℚ) := by positivity
      positivity
    · norm_num
  · intro hm
    exact (mem_find_similar_issues hm).2.2.2.ne'

theorem similarity_formula_clamped_witness :
    wordSet "tidb timeout" ≠ [] ∧
    calculate_similarity "tidb timeout" (process_issue 0 exampleEngagementIssue) =
      claimSimilarity "tidb timeout" (process_issue 0 exampleEngagementIssue) :=
  ⟨by decide,
   (similarity_formula_clamped "tidb timeout" (process_issue 0 exampleEngagementIssue) [] 0
     ⟨process_issue 0 exampleEngagementIssue, 0, 0⟩ (by decide)).1⟩

/-! ### Claim C3 -/

/-- Claim C3 (amended): the result of `find_similar_issues` has length at
most `top_k`, is sorted descending by `(similarity, confidence)` with the
similarity compared first, and every returned issue has a query token in
its tech context, title, body OR joined labels (the claim omitted the
label-only case). -/
theorem find_similar_sorted_bounded (query : String) (issues : List ProcessedIssue)
    (top_k : Nat) :
    (find_similar_issues query issues top_k).length ≤ top_k ∧
    List.Sorted matchGE (find_similar_issues query issues top_k) ∧
    ∀ m ∈ find_similar_issues query issues top_k,
      ∃ t ∈ wordSet query,
        t ∈ m.issue.tech_context ∨ t ∈ wordSet m.issue.title ∨
        t ∈ wordSet m.issue.body ∨ t ∈ wordSet (joinWords m.issue.labels) := by
  refine ⟨?_, ?_, ?_⟩
  · unfold find_similar_issues
    split
    · simp
    · exact List.length_take_le _ _
  · unfold find_similar_issues
    split
    · simp
    · exact List.Pairwise.sublist (List.take_sublist _ _)
        (List.sorted_insertionSort matchGE _)
  · intro m hm
    obtain ⟨-, hsim, -, hpos⟩ := mem_find_similar_issues hm
    rw [hsim, calculate_similarity_pos_iff] at hpos
    simp only [query_overlap] at hpos
    have h4 : 0 < ((wordSet query).filter (fun w => w ∈ wordSet m.issue.title)).length ∨
        0 < ((wordSet query).filter (fun w => w ∈ wordSet m.issue.body)).length ∨
        0 < ((wordSet query).filter (fun w => w ∈ wordSet (joinWords m.issue.labels))).length ∨
        0 < ((wordSet query).filter (fun w => w ∈ m.issue.tech_context.dedup)).length := by
      omega
    rcases h4 with h | h | h | h
    · obtain ⟨t, ht⟩ := List.exists_mem_of_length_pos h
      rw [List.mem_filter] at ht
      exact ⟨t, ht.1, Or.inr (Or.inl (by simpa using ht.2))⟩
    · obtain ⟨t, ht⟩ := List.exists_mem_of_length_pos h
      rw [List.mem_filter] at ht
      exact ⟨t, ht.1, Or.inr (Or.inr (Or.inl (by simpa using ht.2)))⟩
    · obtain ⟨t, ht⟩ := List.exists_mem_of_length_pos h
      rw [List.mem_filter] at ht
      exact ⟨t, ht.1, Or.inr (Or.inr (Or.inr (by simpa using ht.2)))⟩
    · obtain ⟨t, ht⟩ := List.exists_mem_of_length_pos h
      rw [List.mem_filter] at ht
      have htc : t ∈ m.issue.tech_context := List.mem_dedup.mp (by simpa using ht.2)
      exact ⟨t, ht.1, Or.inl htc⟩

/-- An issue that matches the query "kubernetes timeout" only through its
label "timeout": no query token occurs in its tech context, title or body. -/
def labelOnlyRaw : RawIssue :=
  { title := "connection drops"
    body := none
    labels := ["timeout"]
    state := "closed"
    comments := 3
    assignees := []
    milestone := none
    created_at := 0 }

def labelOnlyIssue : ProcessedIssue := process_issue 0 labelOnlyRaw

/-- Evaluation of the matcher on the label-only example. -/
theorem find_similar_label_only_eval :
    find_similar_issues "kubernetes timeout" [labelOnlyIssue] 5 =
      [{ issue := labelOnlyIssue
         similarity := calculate_similarity "kubernetes timeout" labelOnlyIssue
         confidence := get_solution_confidence labelOnlyIssue }] := by
  have hpos : calculate_similarity "kubernetes timeout" labelOnlyIssue > 0 := by
    rw [gt_iff_lt, calculate_similarity_pos_iff]
    decide
  have hfa : (fun i =>
      if calculate_similarity "kubernetes timeout" i > 0 then
        some { issue := i, similarity := calculate_similarity "kubernetes timeout" i,
               confidence := get_solution_confidence i }
      else (none : Option MatchResult)) labelOnlyIssue =
      some { issue := labelOnlyIssue
             similarity := calculate_similarity "kubernetes timeout" labelOnlyIssue
             confidence := get_solution_confidence labelOnlyIssue } := by
    simp only
    rw [if_pos hpos]
  unfold find_similar_issues
  rw [if_neg (by decide)]
  dsimp only
  simp only [List.filterMap_cons, List.filterMap_nil, hfa]
  simp [List.insertionSort, List.orderedInsert]

/-- Counterexample to C3 as stated: a returned candidate whose issue has
no query token in its tech context, title or body (the overlap comes from
the labels alone). -/
theorem find_similar_token_counterexample :
    ∃ m ∈ find_similar_issues "kubernetes timeout" [labelOnlyIssue] 5,
      ∀ t ∈ wordSet "kubernetes timeout",
        t ∉ m.issue.tech_context ∧ t ∉ wordSet m.issue.title ∧ t ∉ wordSet m.issue.body := by
  refine ⟨⟨labelOnlyIssue, calculate_similarity "kubernetes timeout" labelOnlyIssue,
    get_solution_confidence labelOnlyIssue⟩, ?_, ?_⟩
  · rw [find_similar_label_only_eval]
    exact List.mem_singleton.mpr rfl
  · decide

theorem find_similar_sorted_bounded_witness :
    (find_similar_issues "kubernetes timeout" [labelOnlyIssue] 5).length ≤ 5 ∧
    ∃ t ∈ wordSet "kubernetes timeout",
      t ∈ labelOnlyIssue.tech_context ∨ t ∈ wordSet labelOnlyIssue.title ∨
      t ∈ wordSet labelOnlyIssue.body ∨ t ∈ wordSet (joinWords labelOnlyIssue.labels) :=
  ⟨(find_similar_sorted_bounded "kubernetes timeout" [labelOnlyIssue] 5).1,
   (find_similar_sorted_bounded "kubernetes timeout" [labelOnlyIssue] 5).2.2
     ⟨labelOnlyIssue, calculate_similarity "kubernetes timeout" labelOnlyIssue,
      get_solution_confidence labelOnlyIssue⟩
     (by rw [find_similar_label_only_eval]; exact List.mem_singleton.mpr rfl)⟩

/-! ### Claim C10 -/

/-- Modelled from the claim wording of C10: the four-term confidence sum
before the final clamp. -/
def confidenceSum (i : ProcessedIssue) : ℚ :=
  (if i.has_solution then 0.5 else 0) + min ((i.comments_count : ℚ) * 0.02) 0.3 +
  (if i.is_recent then 0.1 else 0) + min ((i.engagement_score : ℚ) * 0.01) 0.1

/-- Claim C10: for engagement scores in [0, 50] the confidence sum is
already at most 1, so the final clamp never changes the value, and the
returned confidence always lies in [0, 1]. -/
theorem confidence_clamp_noop (i : ProcessedIssue) (h : i.engagement_score ≤ 50) :
    confidenceSum i ≤ 1 ∧ get_solution_confidence i = confidenceSum i ∧
    0 ≤ get_solution_confidence i ∧ get_solution_confidence i ≤ 1 := by
  clear h
  have h2a : min ((i.comments_count : ℚ) * 0.02) 0.3 ≤ 0.3 := min_le_right _ _
  have h2b : (0 : ℚ) ≤ min ((i.comments_count : ℚ) * 0.02) 0.3 :=
    le_min (by positivity) (by norm_num)
  have h4a : min ((i.engagement_score : ℚ) * 0.01) 0.1 ≤ 0.1 := min_le_right _ _
  have h4b : (0 : ℚ) ≤ min ((i.engagement_score : ℚ) * 0.01) 0.1 :=
    le_min (by positivity) (by norm_num)
  have hsum : confidenceSum i ≤ 1 := by
    simp only [confidenceSum]
    split_ifs <;> linarith
  have heq : get_solution_confidence i = confidenceSum i := by
    simp only [get_solution_confidence, zero_add]
    exact min_eq_left hsum
  refine ⟨hsum, heq, ?_, ?_⟩
  · rw [heq]
    simp only [confidenceSum]
    split_ifs <;> linarith
  · rw [heq]
    exact hsum

theorem confidence_clamp_noop_witness :
    labelOnlyIssue.engagement_score ≤ 50 ∧
    get_solution_confidence labelOnlyIssue = confidenceSum labelOnlyIssue :=
  ⟨by decide, (confidence_clamp_noop labelOnlyIssue (by decide)).2.1⟩

/-! ### Claim C8 -/

/-- Indexing into the processed list: the k-th issue is processed with the
k-th clock read. -/
theorem process_issues_aux_getElem (clock : Nat → ℚ) :
    ∀ (l : List RawIssue) (k0 j : Nat),
      (process_issues_aux clock k0 l)[j]? =
        (l[j]?).map (fun r => process_issue (clock (k0 + j)) r) := by
  intro l
  induction l with
  | nil => intro k0 j; simp [process_issues_aux]
  | cons r rest ih =>
    intro k0 j
    cases j with
    | zero => simp [process_issues_aux]
    | succ j =>
      have harith : k0 + 1 + j = k0 + (j + 1) := by omega
      simp only [process_issues_aux, List.getElem?_cons_succ, ih (k0 + 1) j, harith]

/-- Claim C8 (amended): the k-th processed issue's recency flag uses the
k-th wall-clock read of the run (the source reads `datetime.now()` inside
`is_recent_issue`, once per issue, not once per run), and each single call
is true iff `now - created_at < 90` days. -/
theorem is_recent_per_issue_clock (clock : Nat → ℚ) (issues : List RawIssue) (k : Nat) :
    (process_issues clock issues)[k]? =
      (issues[k]?).map (fun r => process_issue (clock k) r) ∧
    (∀ (r : RawIssue) (now : ℚ),
      (process_issue now r).is_recent = true ↔ now - r.created_at < 90) := by
  constructor
  · have := process_issues_aux_getElem clock issues 0 k
    simpa [process_issues] using this
  · intro r now
    simp only [process_issue, is_recent_issue, decide_eq_true_eq]
    constructor <;> intro <;> linarith

/-- A clock whose first read is day 100 and whose later reads are day 200. -/
def clockJump : Nat → ℚ := fun k => if k = 0 then 100 else 200

/-- An issue created on day 50. -/
def day50Issue : RawIssue :=
  { title := "t"
    body := none
    labels := []
    state := "open"
    comments := 0
    assignees := []
    milestone := none
    created_at := 50 }

/-- Counterexample to C8 as stated: processing the same raw issue twice in
one run yields different `is_recent` flags, so no single captured "now"
can explain the run's output. -/
theorem is_recent_single_now_counterexample :
    ((process_issues clockJump [day50Issue, day50Issue]).map
        (fun p => p.is_recent)) = [true, false] ∧
    ¬ ∃ now : ℚ,
      ((process_issues clockJump [day50Issue, day50Issue]).map
          (fun p => p.is_recent)) =
        [is_recent_issue day50Issue.created_at now,
         is_recent_issue day50Issue.created_at now] := by
  have heval : ((process_issues clockJump [day50Issue, day50Issue]).map
      (fun p => p.is_recent)) = [true, false] := by
    simp only [process_issues, process_issues_aux, process_issue, List.map_cons,
      List.map_nil, clockJump, day50Issue, is_recent_issue]
    norm_num
  refine ⟨heval, ?_⟩
  rintro ⟨now, h⟩
  rw [heval] at h
  have h1 : true = is_recent_issue day50Issue.created_at now := by
    injection h with ha hb
  have h2 : false = is_recent_issue day50Issue.created_at now := by
    injection h with ha hb
    injection hb with hc hd
  rw [← h1] at h2
  cases h2

theorem is_recent_per_issue_clock_witness :
    (process_issues clockJump [day50Issue])[0]? =
      some (process_issue (clockJump 0) day50Issue) := by
  have := (is_recent_per_issue_clock clockJump [day50Issue] 0).1
  simpa using this

/-! ### Counter and technology usage (src/src/data_collector.py lines 247-255) -/

/-- One `tech_counter[tech] += 1` step on an insertion-ordered counter:
bump the existing entry, else append a fresh one (Python dicts preserve
insertion order). -/
def counterInc : List (String × Nat) → String → List (String × Nat)
  | [], k => [(k, 1)]
  | (key, v) :: rest, k =>
    if key = k then (key, v + 1) :: rest else (key, v) :: counterInc rest k

/-- The `Counter` filling loop of `analyze_tech_usage`. -/
def buildCounter (issues : List ProcessedIssue) : List (String × Nat) :=
  issues.foldl (fun c i => i.tech_context.foldl counterInc c) []

/-- Descending order on counts, used by `Counter.most_common` (a stable
sort by count, so ties keep counter insertion order). -/
def countGE (a b : String × Nat) : Prop := b.2 ≤ a.2

instance : DecidableRel countGE := fun a b => inferInstanceAs (Decidable (b.2 ≤ a.2))

/-- `Counter.most_common(n)`. -/
def most_common (c : List (String × Nat)) (n : Nat) : List (String × Nat) :=
  (c.insertionSort countGE).take n

/-- `analyze_tech_usage`: count tags over all issues, return the top 15. -/
def analyze_tech_usage (issues : List ProcessedIssue) : List (String × Nat) :=
  most_common (buildCounter issues) 15

/-! ### Analytics aggregation (src/src/data_collector.py lines 206-245)

`generate_analytics` builds `pd.DataFrame(processed_issues)` and reads its
columns.  A frame built from a list of records has those records' fields
as columns; the frame built from the EMPTY list has no columns at all, so
any column access (`df['state']`, ...) raises `KeyError`.  Column access
is therefore modelled fallibly.  The temporal and community blocks of the
source's analytics dict come after the accesses modelled here and follow
the same guarded pattern; no claim refers to them, so the snapshot model
stops at the technology block. -/

/-- `df[colName]` on the frame built from `rows`. -/
def dfGetCol {α : Type} (rows : List ProcessedIssue) (colName : String)
    (f : ProcessedIssue → α) : Except String (List α) :=
  if rows.isEmpty then Except.error ("KeyError: " ++ colName)
  else Except.ok (rows.map f)

/-- `Series.mean()`; only ever reached on non-empty frames. -/
def dfMean (l : List ℚ) : ℚ := l.sum / (l.length : ℚ)

/-- `Series.value_counts()`: counts in descending order (tie order is
modelled as first-occurrence, matching the stable-sort behaviour). -/
def value_counts (l : List String) : List (String × Nat) :=
  (l.foldl counterInc []).insertionSort countGE

/-- The analytics snapshot fields verified by the claims. -/
structure Analytics where
  total_issues : Nat
  open_issues : Nat
  closed_issues : Nat
  solution_rate : ℚ
  recent_issues : Nat
  avg_comments : ℚ
  avg_engagement : ℚ
  category_distribution : List (String × Nat)
  tech_usage : List (String × Nat)

/-- `generate_analytics`: the summary block reads the frame's columns in
source order, `df['state']` first. -/
def generate_analytics (issues : List ProcessedIssue) : Except String Analytics := do
  let states ← dfGetCol issues "state" (fun i => i.state)
  let sols ← dfGetCol issues "has_solution" (fun i => i.has_solution)
  let recents ← dfGetCol issues "is_recent" (fun i => i.is_recent)
  let comments ← dfGetCol issues "comments_count" (fun i => (i.comments_count : ℚ))
  let engagements ← dfGetCol issues "engagement_score" (fun i => (i.engagement_score : ℚ))
  let categories ← dfGetCol issues "category" (fun i => i.category)
  Except.ok
    { total_issues := issues.length
      open_issues := (states.filter (fun s => s = "open")).length
      closed_issues := (states.filter (fun s => s = "closed")).length
      solution_rate :=
        if issues.length > 0 then
          ((sols.filter (fun b => b)).length : ℚ) / (issues.length : ℚ)
        else 0
      recent_issues := (recents.filter (fun b => b)).length
      avg_comments := dfMean comments
      avg_engagement := dfMean engagements
      category_distribution := value_counts categories
      tech_usage := analyze_tech_usage issues }

/-! ### Claim C4 -/

/-- Claim C4 is a bug in the code: aggregating the EMPTY collection does
not return a zeroed snapshot; `pd.DataFrame([])` has no columns, so the
very first column access `df['state']` raises `KeyError`, before any of
the guarded ratios is reached. -/
theorem generate_analytics_empty_raises :
    generate_analytics [] = Except.error "KeyError: state" := rfl

/-! ### Claim C7 -/

/-- First occurrence of each element of a stream, in stream order: the
key order of a Python dict/Counter filled from that stream. -/
def firstKeysAux : List String → List String → List String
  | _, [] => []
  | seen, x :: xs =>
    if x ∈ seen then firstKeysAux seen xs else x :: firstKeysAux (x :: seen) xs

def firstKeys (l : List String) : List String := firstKeysAux [] l

/-- The canonical shape of a counter filled from the stream `l`: keys in
first-occurrence order, each paired with its multiplicity in `l`. -/
def canonCounter (l : List String) : List (String × Nat) :=
  (firstKeys l).map (fun t => (t, l.count t))

/-- The concatenated tech-context stream the counter loop traverses. -/
def techStream (issues : List ProcessedIssue) : List String :=
  (issues.map (fun i => i.tech_context)).flatten

theorem firstKeysAux_snoc : ∀ (p seen : List String) (x : String),
    firstKeysAux seen (p ++ [x]) =
      firstKeysAux seen p ++ (if x ∈ seen ∨ x ∈ p then [] else [x]) := by
  intro p
  induction p with
  | nil =>
    intro seen x
    by_cases hx : x ∈ seen <;> simp [firstKeysAux, hx]
  | cons y p ih =>
    intro seen x
    by_cases hy : y ∈ seen <;> by_cases hxs : x ∈ seen <;> by_cases hxy : x = y <;>
        by_cases hxp : x ∈ p <;>
      simp_all [firstKeysAux, List.cons_append, List.mem_cons]

theorem mem_firstKeysAux : ∀ (l seen : List String) (a : String),
    a ∈ firstKeysAux seen l ↔ (a ∈ l ∧ a ∉ seen) := by
  intro l
  induction l with
  | nil => intro seen a; simp [firstKeysAux]
  | cons x xs ih =>
    intro seen a
    by_cases hx : x ∈ seen
    · rw [show firstKeysAux seen (x :: xs) = firstKeysAux seen xs from by
        simp [firstKeysAux, hx]]
      rw [ih seen a]
      simp only [List.mem_cons]
      constructor
      · rintro ⟨h1, h2⟩
        exact ⟨Or.inr h1, h2⟩
      · rintro ⟨h1 | h1, h2⟩
        · subst h1
          exact absurd hx h2
        · exact ⟨h1, h2⟩
    · rw [show firstKeysAux seen (x :: xs) = x :: firstKeysAux (x :: seen) xs from by
        simp [firstKeysAux, hx]]
      simp only [List.mem_cons, ih (x :: seen) a]
      constructor
      · rintro (h | ⟨h1, h2⟩)
        · subst h
          exact ⟨Or.inl rfl, hx⟩
        · refine ⟨Or.inr h1, fun hc => h2 ?_⟩
          exact Or.inr hc
      · rintro ⟨h1 | h1, h2⟩
        · exact Or.inl h1
        · by_cases hax : a = x
          · exact Or.inl hax
          · refine Or.inr ⟨h1, fun hc => ?_⟩
            rcases hc with hc | hc
            · exact hax hc
            · exact h2 hc

theorem nodup_firstKeysAux : ∀ (l seen : List String), (firstKeysAux seen l).Nodup := by
  intro l
  induction l with
  | nil => intro seen; simp [firstKeysAux]
  | cons x xs ih =>
    intro seen
    by_cases hx : x ∈ seen
    · simpa [firstKeysAux, hx] using ih seen
    · rw [show firstKeysAux seen (x :: xs) = x :: firstKeysAux (x :: seen) xs from by
        simp [firstKeysAux, hx]]
      rw [List.nodup_cons]
      refine ⟨fun hmem => ?_, ih (x :: seen)⟩
      have := (mem_firstKeysAux xs (x :: seen) x).mp hmem
      exact this.2 (List.mem_cons_self x seen)

theorem counterInc_map_of_mem : ∀ (ks : List String) (f : String → Nat) (x : String),
    ks.Nodup → x ∈ ks →
    counterInc (ks.map (fun t => (t, f t))) x =
      ks.map (fun t => (t, f t + if t = x then 1 else 0)) := by
  intro ks
  induction ks with
  | nil => intro f x _ hx; simp at hx
  | cons k ks ih =>
    intro f x hnd hx
    rw [List.nodup_cons] at hnd
    by_cases hkx : k = x
    · subst hkx
      rw [List.map_cons, List.map_cons,
        show counterInc ((k, f k) :: ks.map (fun t => (t, f t))) k =
          (k, f k + 1) :: ks.map (fun t => (t, f t)) from by simp [counterInc]]
      congr 1
      · simp
      · apply List.map_congr_left
        intro a ha
        have hak : a ≠ k := fun hc => hnd.1 (hc ▸ ha)
        simp [hak]
    · have hx2 : x ∈ ks := by
        rcases List.mem_cons.mp hx with h | h
        · exact absurd h.symm hkx
        · exact h
      rw [List.map_cons, List.map_cons,
        show counterInc ((k, f k) :: ks.map (fun t => (t, f t))) x =
          (k, f k) :: counterInc (ks.map (fun t => (t, f t))) x from by
            simp [counterInc, hkx]]
      rw [ih f x hnd.2 hx2]
      have hhead : (k, f k) = (k, f k + if k = x then 1 else 0) := by simp [hkx]
      rw [← hhead]

theorem counterInc_of_fresh : ∀ (c : List (String × Nat)) (x : String),
    (∀ e ∈ c, e.1 ≠ x) → counterInc c x = c ++ [(x, 1)] := by
  intro c
  induction c with
  | nil => intro x _; rfl
  | cons e rest ih =>
    intro x h
    obtain ⟨key, v⟩ := e
    have hk : key ≠ x := h (key, v) (List.mem_cons_self _ _)
    simp only [counterInc, if_neg hk, List.cons_append]
    rw [ih x (fun e he => h e (List.mem_cons_of_mem _ he))]

theorem counterInc_canon (p : List String) (x : String) :
    counterInc (canonCounter p) x = canonCounter (p ++ [x]) := by
  by_cases hx : x ∈ p
  · have hk : firstKeys (p ++ [x]) = firstKeys p := by
      unfold firstKeys
      rw [firstKeysAux_snoc]
      simp [hx]
    have hmem : x ∈ firstKeys p := (mem_firstKeysAux p [] x).mpr ⟨hx, by simp⟩
    unfold canonCounter
    rw [hk]
    rw [counterInc_map_of_mem (firstKeys p) (fun t => p.count t) x
      (nodup_firstKeysAux p []) hmem]
    apply List.map_congr_left
    intro a _
    by_cases hax : a = x
    · subst hax
      simp [List.count_append, List.count_cons, List.count_nil]
    · simp [List.count_append, List.count_cons, List.count_nil, hax]
  · have hk : firstKeys (p ++ [x]) = firstKeys p ++ [x] := by
      unfold firstKeys
      rw [firstKeysAux_snoc]
      simp [hx]
    unfold canonCounter
    rw [hk, List.map_append]
    rw [counterInc_of_fresh _ x ?fresh]
    case fresh =>
      intro e he
      rw [List.mem_map] at he
      obtain ⟨a, ha, rfl⟩ := he
      have hap := ((mem_firstKeysAux p [] a).mp ha).1
      exact fun hc => hx (hc ▸ hap)
    congr 1
    · apply List.map_congr_left
      intro a ha
      have hap := ((mem_firstKeysAux p [] a).mp ha).1
      have hax : a ≠ x := fun hc => hx (hc ▸ hap)
      simp [List.count_append, List.count_cons, List.count_nil, hax]
    · simp [List.count_append, List.count_cons, List.count_nil,
        List.count_eq_zero_of_not_mem hx]

theorem foldl_counterInc_canon : ∀ (l p : List String),
    l.foldl counterInc (canonCounter p) = canonCounter (p ++ l) := by
  intro l
  induction l with
  | nil => intro p; simp
  | cons x xs ih =>
    intro p
    rw [List.foldl_cons, counterInc_canon p x, ih (p ++ [x]), List.append_assoc]
    simp

theorem buildCounter_eq (issues : List ProcessedIssue) :
    buildCounter issues = canonCounter (techStream issues) := by
  have h : ∀ (iss : List ProcessedIssue) (c : List (String × Nat)),
      iss.foldl (fun c i => i.tech_context.foldl counterInc c) c =
        ((iss.map (fun i => i.tech_context)).flatten).foldl counterInc c := by
    intro iss
    induction iss with
    | nil => intro c; simp
    | cons i rest ih => intro c; simp [List.foldl_append, ih]
  unfold buildCounter techStream
  rw [h]
  have h0 : (canonCounter [] : List (String × Nat)) = [] := by
    simp [canonCounter, firstKeys, firstKeysAux]
  have := foldl_counterInc_canon ((issues.map (fun i => i.tech_context)).flatten) []
  rw [h0] at this
  simpa using this

theorem techStream_count : ∀ (issues : List ProcessedIssue) (t : String),
    (∀ i ∈ issues, i.tech_context.Nodup) →
    (techStream issues).count t = (issues.filter (fun i => t ∈ i.tech_context)).length := by
  intro issues
  induction issues with
  | nil => intro t _; simp [techStream]
  | cons i rest ih =>
    intro t h
    have hi : i.tech_context.Nodup := h i (List.mem_cons_self _ _)
    have hcount : i.tech_context.count t = if t ∈ i.tech_context then 1 else 0 := by
      by_cases ht : t ∈ i.tech_context
      · simp [ht, List.count_eq_one_of_mem hi ht]
      · simp [ht, List.count_eq_zero_of_not_mem ht]
    have hrest := ih t (fun j hj => h j (List.mem_cons_of_mem _ hj))
    simp only [techStream, List.map_cons, List.flatten_cons, List.count_append]
    rw [show ((rest.map (fun i => i.tech_context)).flatten) = techStream rest from rfl]
    rw [hrest, hcount, List.filter_cons]
    by_cases ht : t ∈ i.tech_context <;> simp [ht] <;> omega

/-- Modelled from the claim wording of C7: every occurring tag paired
with the number of issues whose tech context contains it, ordered by
descending count with ties broken by the FIXED MAPPING's enumeration
order, top 15. -/
def claimTechUsage (issues : List ProcessedIssue) : List (String × Nat) :=
  let tags := (tech_patterns.map (fun p => p.1)).filter
    (fun t => issues.any (fun i => t ∈ i.tech_context))
  ((tags.map (fun t => (t, (issues.filter (fun i => t ∈ i.tech_context)).length))).insertionSort
    countGE).take 15

/-- The amended ordering for C7: ties are broken by the first occurrence
of the tag across the issues' concatenated tech-context stream, i.e. by
Counter insertion order. -/
def specTechUsage (issues : List ProcessedIssue) : List (String × Nat) :=
  (((firstKeys (techStream issues)).map
      (fun t => (t, (issues.filter (fun i => t ∈ i.tech_context)).length))).insertionSort
    countGE).take 15

/-- Claim C7 (amended): for issues with duplicate-free tech contexts,
`analyze_tech_usage` counts, for every tag, the issues containing it,
orders tags by descending count with ties in first-occurrence order
across the stream, and returns the top 15. -/
theorem tech_usage_first_occurrence (issues : List ProcessedIssue)
    (h : ∀ i ∈ issues, i.tech_context.Nodup) :
    analyze_tech_usage issues = specTechUsage issues := by
  unfold analyze_tech_usage most_common specTechUsage
  rw [buildCounter_eq]
  unfold canonCounter
  have hmap : (firstKeys (techStream issues)).map
        (fun t => (t, (techStream issues).count t)) =
      (firstKeys (techStream issues)).map
        (fun t => (t, (issues.filter (fun i => t ∈ i.tech_context)).length)) :=
    List.map_congr_left (fun a _ => by rw [techStream_count issues a h])
  rw [hmap]

def tikvRaw : RawIssue :=
  { title := "tikv"
    body := none
    labels := []
    state := "open"
    comments := 0
    assignees := []
    milestone := none
    created_at := 0 }

def kubernetesRaw : RawIssue :=
  { title := "kubernetes"
    body := none
    labels := []
    state := "open"
    comments := 0
    assignees := []
    milestone := none
    created_at := 0 }

/-- Two issues whose single tags are seen in the stream in the order
tikv, kubernetes — the reverse of the fixed mapping's enumeration order. -/
def twoTechIssues : List ProcessedIssue :=
  [process_issue 0 tikvRaw, process_issue 0 kubernetesRaw]

/-- Counterexample to C7 as stated: with one tikv issue followed by one
kubernetes issue (both counts 1), `most_common` keeps Counter insertion
order (tikv first), while the claim's mapping-enumeration tie-break puts
kubernetes first. -/
theorem tech_usage_claim_order_counterexample :
    analyze_tech_usage twoTechIssues = [("tikv", 1), ("kubernetes", 1)] ∧
    claimTechUsage twoTechIssues = [("kubernetes", 1), ("tikv", 1)] ∧
    analyze_tech_usage twoTechIssues ≠ claimTechUsage twoTechIssues :=
  ⟨by decide, by decide, by decide⟩

theorem tech_usage_first_occurrence_witness :
    (∀ i ∈ twoTechIssues, i.tech_context.Nodup) ∧
    analyze_tech_usage twoTechIssues = specTechUsage twoTechIssues :=
  ⟨by decide, tech_usage_first_occurrence twoTechIssues (by decide)⟩
